import Mathlib

/-!
# Controlled-Anonymity: the matchmaking server (`src/backend/server.js`)

A shallow embedding of the `connection` listener of `server.js`, of the four
handlers it registers (`join_queue`, `report_user`, `send_message`,
`disconnect`) and of the helper `leaveRoom`, followed by theorems about them.

## The state

* `waitingQueue` is the module-level array of the same name.  An entry of the
  source also stores the socket object; a socket is identified by its id, so
  the embedding keeps the id only.
* `userUsage` is the ledger object, read as a finite map from device id to
  record.
* `rooms` is the room bookkeeping that the socket.io server keeps for the
  program: `rooms s` is `Array.from(socket.rooms)` of the socket whose id is
  `s`, in insertion order.

## The socket.io operations the handlers call

The handlers are written against the socket.io server API (version 3 or later:
`const { Server } = require("socket.io")`, `socket.rooms` is a `Set`).  The
embedding uses the documented behaviour of that API:

* a socket is put in the room named by its own id when it connects, which is
  why `leaveRoom` has to look for a name starting with `room_`;
* `socket.join(r)` adds `r` to `socket.rooms` (a set: no duplicate),
  `socket.leave(r)` removes it;
* `socket.to(r).emit(e)` delivers `e` to every socket that is in room `r` and
  is not in the room named `socket.id`; it does not require `socket` to be in
  `r`.  The sender is left out because it is in the room of its own id: a
  socket that has left that room receives its own broadcasts;
* `io.to(r).emit(e)` delivers `e` to every socket that is in room `r`;
* `socket.emit(e)` delivers `e` to `socket`;
* when a connection closes, socket.io fires `disconnecting`, then removes the
  socket from all its rooms, and only then fires `disconnect`: inside a
  `disconnect` listener `socket.rooms` is already empty.

What a handler sends is recorded as a function from session id to the list of
events delivered to that session, in the order of emission.
-/

namespace ControlledAnonymity

/-! ## Data model -/

/-- An element of `waitingQueue` (lines 105-111); `id` stands for the socket too. -/
structure QueueEntry where
  id : String
  nickname : String
  gender : String
  genderFilter : String
deriving DecidableEq, Repr

/-- A value of the ledger `userUsage` (line 24): `{ count, date }`. -/
structure UsageRecord where
  count : Nat
  date : String
deriving DecidableEq, Repr

/-- The payload of `join_queue` (line 50). -/
structure UserData where
  nickname : String
  gender : String
  genderFilter : String
  deviceId : String
deriving DecidableEq, Repr

/-- The payload of `send_message` (line 123). -/
structure MessageData where
  roomID : String
  message : String
  sender : String
deriving DecidableEq, Repr

/-- The events the server emits to clients. -/
inductive OutEvent where
  | receive_message (sender message : String)
  | partner_left
  | match_found (roomID : String)
deriving DecidableEq, Repr

/-- What one handler run delivers: for each session id, the events it receives. -/
abbrev Emit := String → List OutEvent

/-- The server state: the queue, the ledger, and socket.io's room membership. -/
structure State where
  waitingQueue : List QueueEntry
  userUsage : String → Option UsageRecord
  rooms : String → List String

/-- The constant `DAILY_LIMIT` (line 25). -/
def DAILY_LIMIT : Nat := 10

/-- The notice of line 34-37. -/
def leftNotice : OutEvent :=
  OutEvent.receive_message "System" "The stranger has left the chat. 🚪"

/-- The rejection message of lines 64-68. -/
def limitNotice : OutEvent :=
  OutEvent.receive_message "System"
    "🚫 Daily Limit Reached! You can only use specific gender filters 10 times per day. Try 'Random Match'."

/-! ## socket.io operations -/

/-- JavaScript `s.startsWith(p)`. -/
def startsWith (s p : String) : Bool := p.data.isPrefixOf s.data

/-- The test of line 30: `r.startsWith("room_")`. -/
def isRoom (r : String) : Bool := startsWith r "room_"

/-- Nothing is emitted. -/
def emitNone : Emit := fun _ => []

/-- Emissions in sequence. -/
def emitSeq (a b : Emit) : Emit := fun r => a r ++ b r

/-- The call `socket.emit(e)`: to the socket itself. -/
def emitSelf (sid : String) (evs : List OutEvent) : Emit :=
  fun r => if r = sid then evs else []

/-- The call `socket.to(room).emit(e)`: to the members of `room` that are not members
of the room named `socket.id`. -/
def emitToRoomExcept (rooms : String → List String) (sid room : String)
    (evs : List OutEvent) : Emit :=
  fun r => if room ∈ rooms r ∧ sid ∉ rooms r then evs else []

/-- The call `io.to(room).emit(e)`: to every member of `room`. -/
def emitToRoom (rooms : String → List String) (room : String)
    (evs : List OutEvent) : Emit :=
  fun r => if room ∈ rooms r then evs else []

/-- The call `socket.join(room)`. -/
def socketJoin (rooms : String → List String) (sid room : String) : String → List String :=
  fun r => if r = sid then (if room ∈ rooms r then rooms r else rooms r ++ [room]) else rooms r

/-- The call `socket.leave(room)`. -/
def socketLeave (rooms : String → List String) (sid room : String) : String → List String :=
  fun r => if r = sid then (rooms r).filter (fun x => x ≠ room) else rooms r

/-- What socket.io does to a closing socket before it fires `disconnect`:
the socket leaves all its rooms. -/
def leaveAll (rooms : String → List String) (sid : String) : String → List String :=
  fun r => if r = sid then [] else rooms r

/-! ## The program -/

/-- The function `leaveRoom(socket)` (lines 28-43). -/
def leaveRoom (st : State) (sid : String) : State × Emit :=
  match (st.rooms sid).find? isRoom with
  | some roomID =>
      ({ st with rooms := socketLeave st.rooms sid roomID },
       emitToRoomExcept st.rooms sid roomID [leftNotice, OutEvent.partner_left])
  | none => (st, emitNone)

/-- The fairness check of lines 55-76 on the ledger: the ledger afterwards, and
whether the request goes on (`true`) or is stopped by the `return` of line 69. -/
def fairnessCheck (usage : String → Option UsageRecord) (genderFilter deviceId today : String) :
    (String → Option UsageRecord) × Bool :=
  if genderFilter ≠ "Any" then
    let fresh : Bool :=
      match usage deviceId with
      | none => true
      | some r => decide (r.date ≠ today)
    let usage1 : String → Option UsageRecord :=
      if fresh then (fun d => if d = deviceId then some { count := 0, date := today } else usage d)
      else usage
    match usage1 deviceId with
    | some r =>
        if r.count ≥ DAILY_LIMIT then (usage1, false)
        else
          ((fun d => if d = deviceId then some { r with count := r.count + 1 } else usage1 d), true)
    | none => (usage1, false) -- not taken: line 60 has just created the record
  else (usage, true)

/-- The predicate passed to `findIndex` (lines 82-89). -/
def isMatch (sid gender genderFilter : String) (user : QueueEntry) : Bool :=
  let isNotMe := user.id != sid
  let matchesMyFilter := genderFilter == "Any" || user.gender == genderFilter
  let matchesTheirFilter := user.genderFilter == "Any" || user.genderFilter == gender
  isNotMe && matchesMyFilter && matchesTheirFilter

/-- The template string of line 96. -/
def mkRoomID (sid partnerId : String) : String :=
  "room_" ++ sid ++ "_" ++ partnerId

/-- The object pushed on the queue (lines 105-111). -/
def queueEntry (sid : String) (userData : UserData) : QueueEntry :=
  { id := sid, nickname := userData.nickname, gender := userData.gender,
    genderFilter := userData.genderFilter }

/-- Lines 81-112 of the `join_queue` handler: scan, then match or enqueue. -/
def findMatch (st : State) (sid : String) (userData : UserData) : State × Emit :=
  match st.waitingQueue.findIdx? (isMatch sid userData.gender userData.genderFilter) with
  | some matchIndex =>
      match st.waitingQueue.get? matchIndex with
      | some partner =>
          let roomID := mkRoomID sid partner.id
          let rooms1 := socketJoin st.rooms sid roomID
          let rooms2 := socketJoin rooms1 partner.id roomID
          ({ st with waitingQueue := st.waitingQueue.eraseIdx matchIndex, rooms := rooms2 },
           emitToRoom rooms2 roomID [OutEvent.match_found roomID])
      | none => (st, emitNone)
  | none =>
      ({ st with waitingQueue := st.waitingQueue ++ [queueEntry sid userData] }, emitNone)

/-- A new connection (lines 45-46): socket.io has put the socket in the room of its
own id; the listener logs and registers the handlers. -/
def connection (st : State) (sid : String) : State × Emit :=
  ({ st with rooms := fun r => if r = sid then [sid] else st.rooms r }, emitNone)

/-- The `join_queue` handler (lines 49-113); `today` is the value of
`new Date().toLocaleDateString()` when the handler runs. -/
def join_queue (st : State) (sid : String) (userData : UserData) (today : String) :
    State × Emit :=
  let (st1, out1) := leaveRoom st sid
  let (usage2, goOn) := fairnessCheck st1.userUsage userData.genderFilter userData.deviceId today
  let st2 : State := { st1 with userUsage := usage2 }
  if goOn then
    let (st3, out3) := findMatch st2 sid userData
    (st3, emitSeq out1 out3)
  else
    (st2, emitSeq out1 (emitSelf sid [limitNotice]))

/-- The `report_user` handler (lines 116-119). -/
def report_user (st : State) (sid : String) : State × Emit :=
  leaveRoom st sid

/-- The `send_message` handler (lines 122-125). -/
def send_message (st : State) (sid : String) (data : MessageData) : State × Emit :=
  (st, emitToRoomExcept st.rooms sid data.roomID
        [OutEvent.receive_message data.sender data.message])

/-- The body of the `disconnect` listener (lines 128-132). -/
def onDisconnect (st : State) (sid : String) : State × Emit :=
  let (st1, out1) := leaveRoom st sid
  ({ st1 with waitingQueue := st1.waitingQueue.filter (fun u => u.id ≠ sid) }, out1)

/-- A `disconnect` of the socket `sid`: socket.io has emptied `socket.rooms`
when the listener runs. -/
def disconnect (st : State) (sid : String) : State × Emit :=
  onDisconnect { st with rooms := leaveAll st.rooms sid } sid

/-! ## Event sequences -/

/-- An incoming event, with the id of the socket it arrives on. -/
inductive Event where
  | connection (sid : String)
  | join_queue (sid : String) (userData : UserData) (today : String)
  | report_user (sid : String)
  | send_message (sid : String) (data : MessageData)
  | disconnect (sid : String)
deriving DecidableEq, Repr

/-- One event handled to completion (the handlers run one at a time). -/
def step (st : State) : Event → State × Emit
  | Event.connection sid => connection st sid
  | Event.join_queue sid userData today => join_queue st sid userData today
  | Event.report_user sid => report_user st sid
  | Event.send_message sid data => send_message st sid data
  | Event.disconnect sid => disconnect st sid

/-- The state after a sequence of events. -/
def run (st : State) : List Event → State
  | [] => st
  | e :: es => run (step st e).1 es

/-- The state at start-up: empty queue (line 23), empty ledger (line 24), and no
socket connected. -/
def init : State :=
  { waitingQueue := [], userUsage := fun _ => none, rooms := fun _ => [] }

/-- The states the server can be in. -/
def Reachable (st : State) : Prop := ∃ evs : List Event, run init evs = st

/-! ## Vocabulary of the specification, and sample data -/

/-- Whether the fairness check lets a request of `userData` through in state `st`. -/
def admitted (st : State) (userData : UserData) (today : String) : Bool :=
  (fairnessCheck st.userUsage userData.genderFilter userData.deviceId today).2

/-- The matchability of a queue entry with a requester, in the words of the
specification: different id, and each side's filter is "Any" or equals the
other side's gender. -/
def Matchable (sid : String) (userData : UserData) (e : QueueEntry) : Prop :=
  e.id ≠ sid ∧ (userData.genderFilter = "Any" ∨ userData.genderFilter = e.gender) ∧
    (e.genderFilter = "Any" ∨ e.genderFilter = userData.gender)

instance (sid : String) (userData : UserData) (e : QueueEntry) :
    Decidable (Matchable sid userData e) := by
  unfold Matchable; exact inferInstance

/-- The state in which the scan of a request that passed the fairness check runs. -/
def afterCheck (st : State) (sid : String) (userData : UserData) (today : String) : State :=
  { (leaveRoom st sid).1 with
    userUsage := (fairnessCheck st.userUsage userData.genderFilter userData.deviceId today).1 }

/-- Three sessions wait: a man who asks for a man, then two women who ask for a man. -/
def fifoEvents : List Event :=
  [Event.connection "Q0", Event.connection "Q1", Event.connection "Q2", Event.connection "R",
   Event.join_queue "Q0"
     { nickname := "q0", gender := "M", genderFilter := "M", deviceId := "dev_q0" } "2/3/2026",
   Event.join_queue "Q1"
     { nickname := "q1", gender := "F", genderFilter := "M", deviceId := "dev_q1" } "2/3/2026",
   Event.join_queue "Q2"
     { nickname := "q2", gender := "F", genderFilter := "M", deviceId := "dev_q2" } "2/3/2026"]

/-- The state with the queue "Q0", "Q1", "Q2". -/
def fifoState : State := run init fifoEvents

/-- A request of a "M" session that asks for a "F" partner. -/
def fifoRequest : UserData :=
  { nickname := "r", gender := "M", genderFilter := "F", deviceId := "dev_r" }

/-- Session `s` is in a room: some element of its `socket.rooms` passes the test of
line 30. -/
def inRoom (st : State) (s : String) : Bool := (st.rooms s).any isRoom

/-- Sessions `a` and `b` are members of a common room named `room_...`. -/
def sharedRoom (st : State) (a b : String) : Bool :=
  (st.rooms a).any (fun x => isRoom x && decide (x ∈ st.rooms b))

/-- A filter accepts a gender, in the words of the specification: it is "Any" or equal
to the gender. -/
def Accepts (filter gender : String) : Prop := filter = "Any" ∨ filter = gender

/-- A: male, takes anyone. -/
def userA : UserData := { nickname := "a", gender := "M", genderFilter := "Any", deviceId := "dev_a" }

/-- B: female, asks for a male partner. -/
def userB : UserData := { nickname := "b", gender := "F", genderFilter := "M", deviceId := "dev_b" }

/-- Sessions "A" and "B" are connected and nothing else has happened. -/
def twoConnected : State := run init [Event.connection "A", Event.connection "B"]

/-- Whether `e` is a `join_queue` request of device `d` with a filter other than "Any". -/
def filteredJoinOf (d : String) : Event → Bool
  | Event.join_queue _ userData _ => userData.deviceId == d && userData.genderFilter != "Any"
  | _ => false

/-- The filtered requests of device `d` in `e` are made on day `t`. -/
def onDay (d t : String) : Event → Prop
  | Event.join_queue _ userData today =>
      userData.deviceId = d → userData.genderFilter ≠ "Any" → today = t
  | _ => True

instance (d t : String) (e : Event) : Decidable (onDay d t e) := by
  cases e <;> unfold onDay <;> exact inferInstance

/-- The stored count of device `d` (0 when it has no record). -/
def countOf (st : State) (d : String) : Nat :=
  match st.userUsage d with
  | some r => r.count
  | none => 0

/-- The record of a device after `k` filtered requests on day `t`, starting with no record. -/
def ledgerAfter (t : String) (k : Nat) : Option UsageRecord :=
  if k = 0 then none else some { count := min k DAILY_LIMIT, date := t }

/-- A filtered request of device "dev_x". -/
def userX : UserData := { nickname := "x", gender := "M", genderFilter := "F", deviceId := "dev_x" }

/-- Twelve filtered requests of device "dev_x" on one day, with events of others in between. -/
def busyDay : List Event :=
  [Event.connection "X", Event.connection "A", Event.connection "B",
   Event.join_queue "X" userX "2/3/2026", Event.join_queue "X" userX "2/3/2026",
   Event.join_queue "A" userA "2/3/2026", Event.join_queue "X" userX "2/3/2026",
   Event.join_queue "X" userX "2/3/2026", Event.join_queue "B" userB "2/3/2026",
   Event.join_queue "X" userX "2/3/2026", Event.join_queue "X" userX "2/3/2026",
   Event.report_user "A", Event.join_queue "X" userX "2/3/2026",
   Event.join_queue "X" userX "2/3/2026", Event.join_queue "X" userX "2/3/2026",
   Event.join_queue "X" userX "2/3/2026", Event.disconnect "B",
   Event.join_queue "X" userX "2/3/2026", Event.join_queue "X" userX "2/3/2026"]

/-- C: female, takes anyone. -/
def userC : UserData := { nickname := "c", gender := "F", genderFilter := "Any", deviceId := "dev_c" }

/-- Session "A" connects and asks for a partner twice in a row. -/
def rejoinEvents : List Event :=
  [Event.connection "A", Event.join_queue "A" userA "2/3/2026",
   Event.join_queue "A" userA "2/3/2026"]

/-- After "A" asked twice, "B" and then "C" ask for a partner. -/
def twoRoomsEvents : List Event :=
  [Event.connection "A", Event.connection "B", Event.connection "C",
   Event.join_queue "A" userA "2/3/2026", Event.join_queue "A" userA "2/3/2026",
   Event.join_queue "B" userB "2/3/2026", Event.join_queue "C" userC "2/3/2026"]

/-- "A" and "B" connect, "A" waits, "B" is matched with "A"; "C" is connected too. -/
def pairedEvents : List Event :=
  [Event.connection "A", Event.connection "B", Event.connection "C",
   Event.join_queue "A" userA "2/3/2026", Event.join_queue "B" userB "2/3/2026"]

/-- The state in which "A" and "B" are the members of "room_B_A". -/
def pairedState : State := run init pairedEvents

/-- A message for "room_B_A". -/
def hello : MessageData := { roomID := "room_B_A", message := "hi", sender := "b" }

/-- The id of the socket an event arrives on. -/
def Event.sid : Event → String
  | Event.connection sid => sid
  | Event.join_queue sid _ _ => sid
  | Event.report_user sid => sid
  | Event.send_message sid _ => sid
  | Event.disconnect sid => sid

/-- The day after the day of `busyDay`. -/
def nextDay : String := "2/4/2026"

/-- The request of "dev_x" with the filter "Any". -/
def userXAny : UserData := { nickname := "x", gender := "M", genderFilter := "Any", deviceId := "dev_x" }

/-- After "A" asked twice, "B" asks for a partner and is matched with "A". -/
def queuedInRoomEvents : List Event :=
  [Event.connection "A", Event.connection "B",
   Event.join_queue "A" userA "2/3/2026", Event.join_queue "A" userA "2/3/2026",
   Event.join_queue "B" userB "2/3/2026"]

/-- The queue holds no missed match, in the words of the claim: no two entries with
different ids are such that each one's filter accepts the other's gender. -/
def NoMissedMatch (q : List QueueEntry) : Prop :=
  ∀ e1 ∈ q, ∀ e2 ∈ q, e1.id ≠ e2.id →
    ¬ (Accepts e1.genderFilter e2.gender ∧ Accepts e2.genderFilter e1.gender)

/-- A woman who asks for a woman: no entry of `fifoState` is matchable with her. -/
def userF : UserData := { nickname := "f", gender := "F", genderFilter := "F", deviceId := "dev_f" }

/-- A session whose id starts with `room_` waits and is matched with "B". -/
def echoEvents : List Event :=
  [Event.connection "room_Z", Event.connection "B",
   Event.join_queue "room_Z" userA "2/3/2026", Event.join_queue "B" userB "2/3/2026"]

/-- The state in which "room_Z" and "B" are the members of "room_B_room_Z". -/
def echoState : State := run init echoEvents

/-- A message for "room_B_room_Z". -/
def helloZ : MessageData := { roomID := "room_B_room_Z", message := "hi", sender := "z" }

/-! ## Theorems -/

theorem isMatch_iff (sid : String) (userData : UserData) (e : QueueEntry) :
    isMatch sid userData.gender userData.genderFilter e = true ↔ Matchable sid userData e := by
  simp only [isMatch, Matchable, Bool.and_eq_true, Bool.or_eq_true, beq_iff_eq, bne_iff_ne,
    ne_eq, and_assoc]
  constructor
  · rintro ⟨h1, h2, h3⟩
    exact ⟨h1, h2.imp id Eq.symm, h3⟩
  · rintro ⟨h1, h2, h3⟩
    exact ⟨h1, h2.imp id Eq.symm, h3⟩

theorem leaveRoom_waitingQueue (st : State) (sid : String) :
    (leaveRoom st sid).1.waitingQueue = st.waitingQueue := by
  unfold leaveRoom; split <;> rfl

theorem leaveRoom_userUsage (st : State) (sid : String) :
    (leaveRoom st sid).1.userUsage = st.userUsage := by
  unfold leaveRoom; split <;> rfl

theorem leaveRoom_rooms_other (st : State) (sid r : String) (h : r ≠ sid) :
    (leaveRoom st sid).1.rooms r = st.rooms r := by
  unfold leaveRoom; split <;> simp [socketLeave, h]

theorem afterCheck_waitingQueue (st : State) (sid : String) (userData : UserData)
    (today : String) : (afterCheck st sid userData today).waitingQueue = st.waitingQueue := by
  simp [afterCheck, leaveRoom_waitingQueue]

theorem join_queue_of_admitted (st : State) (sid : String) (userData : UserData)
    (today : String) (h : admitted st userData today = true) :
    join_queue st sid userData today =
      ((findMatch (afterCheck st sid userData today) sid userData).1,
        emitSeq (leaveRoom st sid).2 (findMatch (afterCheck st sid userData today) sid userData).2) := by
  unfold admitted at h
  simp [join_queue, afterCheck, leaveRoom_userUsage, h]

theorem join_queue_of_not_admitted (st : State) (sid : String) (userData : UserData)
    (today : String) (h : admitted st userData today = false) :
    join_queue st sid userData today =
      (afterCheck st sid userData today,
        emitSeq (leaveRoom st sid).2 (emitSelf sid [limitNotice])) := by
  unfold admitted at h
  simp [join_queue, afterCheck, leaveRoom_userUsage, h]

theorem findMatch_of_none (st : State) (sid : String) (userData : UserData)
    (h : st.waitingQueue.findIdx? (isMatch sid userData.gender userData.genderFilter) = none) :
    findMatch st sid userData =
      ({ st with waitingQueue := st.waitingQueue ++
          [(queueEntry sid userData)] }, emitNone) := by
  simp only [findMatch, h]

theorem findMatch_of_some (st : State) (sid : String) (userData : UserData) (i : Nat)
    (partner : QueueEntry)
    (h : st.waitingQueue.findIdx? (isMatch sid userData.gender userData.genderFilter) = some i)
    (hp : st.waitingQueue.get? i = some partner) :
    findMatch st sid userData =
      ({ st with waitingQueue := st.waitingQueue.eraseIdx i,
                 rooms := socketJoin (socketJoin st.rooms sid (mkRoomID sid partner.id))
                    partner.id (mkRoomID sid partner.id) },
       emitToRoom (socketJoin (socketJoin st.rooms sid (mkRoomID sid partner.id))
                    partner.id (mkRoomID sid partner.id)) (mkRoomID sid partner.id)
         [OutEvent.match_found (mkRoomID sid partner.id)]) := by
  simp only [findMatch, h, hp]

/-- The scan finds the first matchable entry, when there is one. -/
theorem scan_first (q : List QueueEntry) (sid : String) (userData : UserData)
    (hex : ∃ e ∈ q, Matchable sid userData e) :
    ∃ i partner, q.findIdx? (isMatch sid userData.gender userData.genderFilter) = some i ∧
      q.get? i = some partner ∧ Matchable sid userData partner ∧
      ∀ j e, j < i → q.get? j = some e → ¬ Matchable sid userData e := by
  obtain ⟨e, he, hm⟩ := hex
  have hsome := List.findIdx?_eq_some_of_exists
    (p := isMatch sid userData.gender userData.genderFilter) ⟨e, he, (isMatch_iff _ _ _).2 hm⟩
  obtain ⟨hlt, hp, hfirst⟩ := List.findIdx?_eq_some_iff_getElem.1 hsome
  refine ⟨_, q[q.findIdx (isMatch sid userData.gender userData.genderFilter)], hsome, ?_,
    (isMatch_iff _ _ _).1 hp, ?_⟩
  · simp [List.getElem?_eq_getElem hlt]
  · intro j e' hj hget hm'
    have hjl : j < q.length := Nat.lt_trans hj hlt
    have := hfirst j hj
    rw [List.get?_eq_getElem?, List.getElem?_eq_getElem hjl] at hget
    cases hget
    exact this ((isMatch_iff _ _ _).2 hm')

theorem mem_socketJoin_self (rooms : String → List String) (sid room : String) :
    room ∈ socketJoin rooms sid room sid := by
  by_cases h : room ∈ rooms sid <;> simp [socketJoin, h]

theorem mem_socketJoin_of_mem (rooms : String → List String) (sid room r x : String)
    (h : x ∈ rooms r) : x ∈ socketJoin rooms sid room r := by
  unfold socketJoin
  split
  · split
    · exact h
    · exact List.mem_append_left _ h
  · exact h

theorem mem_emitSeq_right (a b : Emit) (r : String) (e : OutEvent) (h : e ∈ b r) :
    e ∈ emitSeq a b r := List.mem_append_right _ h

/-- C1: an admitted `join_queue` request of session `sid`, when some queue entry is
matchable with it, is paired with the matchable entry of smallest index: no earlier
entry is matchable, the partner's id differs from `sid`, the partner's entry leaves the
queue, both sessions are in the room made of their ids and both are told of the match. -/
theorem join_queue_pairs_first_matchable (st : State) (sid : String) (userData : UserData)
    (today : String) (hadm : admitted st userData today = true)
    (hex : ∃ e ∈ st.waitingQueue, Matchable sid userData e) :
    ∃ i partner, st.waitingQueue.get? i = some partner ∧ Matchable sid userData partner ∧
      partner.id ≠ sid ∧
      (∀ j e, j < i → st.waitingQueue.get? j = some e → ¬ Matchable sid userData e) ∧
      (join_queue st sid userData today).1.waitingQueue = st.waitingQueue.eraseIdx i ∧
      mkRoomID sid partner.id ∈ (join_queue st sid userData today).1.rooms sid ∧
      mkRoomID sid partner.id ∈ (join_queue st sid userData today).1.rooms partner.id ∧
      OutEvent.match_found (mkRoomID sid partner.id) ∈ (join_queue st sid userData today).2 sid ∧
      OutEvent.match_found (mkRoomID sid partner.id) ∈
        (join_queue st sid userData today).2 partner.id := by
  obtain ⟨i, partner, hidx, hget, hm, hfirst⟩ := scan_first st.waitingQueue sid userData hex
  have hidx2 : (afterCheck st sid userData today).waitingQueue.findIdx?
      (isMatch sid userData.gender userData.genderFilter) = some i := by
    rw [afterCheck_waitingQueue]; exact hidx
  have hget2 : (afterCheck st sid userData today).waitingQueue.get? i = some partner := by
    rw [afterCheck_waitingQueue]; exact hget
  have hself : mkRoomID sid partner.id ∈
      socketJoin (socketJoin (afterCheck st sid userData today).rooms sid (mkRoomID sid partner.id))
        partner.id (mkRoomID sid partner.id) sid :=
    mem_socketJoin_of_mem _ _ _ _ _ (mem_socketJoin_self _ _ _)
  have hpart : mkRoomID sid partner.id ∈
      socketJoin (socketJoin (afterCheck st sid userData today).rooms sid (mkRoomID sid partner.id))
        partner.id (mkRoomID sid partner.id) partner.id :=
    mem_socketJoin_self _ _ _
  refine ⟨i, partner, hget, hm, hm.1, hfirst, ?_, ?_, ?_, ?_, ?_⟩
  · rw [join_queue_of_admitted st sid userData today hadm,
      findMatch_of_some _ sid userData i partner hidx2 hget2]
    simp [afterCheck_waitingQueue]
  · rw [join_queue_of_admitted st sid userData today hadm,
      findMatch_of_some _ sid userData i partner hidx2 hget2]
    exact hself
  · rw [join_queue_of_admitted st sid userData today hadm,
      findMatch_of_some _ sid userData i partner hidx2 hget2]
    exact hpart
  · rw [join_queue_of_admitted st sid userData today hadm,
      findMatch_of_some _ sid userData i partner hidx2 hget2]
    apply mem_emitSeq_right
    simp [emitToRoom, hself]
  · rw [join_queue_of_admitted st sid userData today hadm,
      findMatch_of_some _ sid userData i partner hidx2 hget2]
    apply mem_emitSeq_right
    simp [emitToRoom, hpart]

theorem join_queue_pairs_first_matchable_witness :
    admitted fifoState fifoRequest "2/3/2026" = true ∧
    (∃ e ∈ fifoState.waitingQueue, Matchable "R" fifoRequest e) ∧
    ∃ i partner, fifoState.waitingQueue.get? i = some partner ∧ Matchable "R" fifoRequest partner ∧
      partner.id ≠ "R" ∧
      (∀ j e, j < i → fifoState.waitingQueue.get? j = some e → ¬ Matchable "R" fifoRequest e) ∧
      (join_queue fifoState "R" fifoRequest "2/3/2026").1.waitingQueue =
        fifoState.waitingQueue.eraseIdx i ∧
      mkRoomID "R" partner.id ∈ (join_queue fifoState "R" fifoRequest "2/3/2026").1.rooms "R" ∧
      mkRoomID "R" partner.id ∈
        (join_queue fifoState "R" fifoRequest "2/3/2026").1.rooms partner.id ∧
      OutEvent.match_found (mkRoomID "R" partner.id) ∈
        (join_queue fifoState "R" fifoRequest "2/3/2026").2 "R" ∧
      OutEvent.match_found (mkRoomID "R" partner.id) ∈
        (join_queue fifoState "R" fifoRequest "2/3/2026").2 partner.id :=
  ⟨by decide, by decide,
    join_queue_pairs_first_matchable fifoState "R" fifoRequest "2/3/2026" (by decide) (by decide)⟩

theorem isPrefixOf_append_self (p l : List Char) : p.isPrefixOf (p ++ l) = true := by
  induction p with
  | nil => simp [List.isPrefixOf]
  | cons c p ih => simp [List.isPrefixOf, ih]

theorem isRoom_mkRoomID (sid partnerId : String) : isRoom (mkRoomID sid partnerId) = true := by
  simp only [isRoom, startsWith, mkRoomID, String.data_append, List.append_assoc]
  exact isPrefixOf_append_self _ _

theorem leaveRoom_of_not_inRoom (st : State) (sid : String) (h : inRoom st sid = false) :
    leaveRoom st sid = (st, emitNone) := by
  have : (st.rooms sid).find? isRoom = none := by
    rw [List.find?_eq_none]
    intro x hx hr
    have : inRoom st sid = true := List.any_eq_true.2 ⟨x, hx, hr⟩
    rw [h] at this
    exact Bool.noConfusion this
  simp only [leaveRoom, this]

theorem queueEntry_id (sid : String) (userData : UserData) :
    (queueEntry sid userData).id = sid := rfl

theorem queueEntry_gender (sid : String) (userData : UserData) :
    (queueEntry sid userData).gender = userData.gender := rfl

theorem queueEntry_genderFilter (sid : String) (userData : UserData) :
    (queueEntry sid userData).genderFilter = userData.genderFilter := rfl

theorem join_queue_first (st : State) (a : String) (ua : UserData) (t1 : String)
    (hq : st.waitingQueue = []) (ha : inRoom st a = false)
    (h1 : admitted st ua t1 = true) :
    (join_queue st a ua t1).1 =
      { waitingQueue := [(queueEntry a ua)],
        userUsage := (fairnessCheck st.userUsage ua.genderFilter ua.deviceId t1).1,
        rooms := st.rooms } := by
  rw [join_queue_of_admitted st a ua t1 h1, findMatch_of_none]
  · simp [afterCheck, leaveRoom_of_not_inRoom st a ha, hq]
  · simp [afterCheck_waitingQueue, hq]

theorem sharedRoom_false_of_not_inRoom (st : State) (a b : String) (h : inRoom st a = false) :
    sharedRoom st a b = false := by
  unfold inRoom at h
  unfold sharedRoom
  rw [List.any_eq_false] at h ⊢
  intro x hx
  simp [h x hx]

theorem pair_join (st : State) (a b : String) (ua ub : UserData) (t1 t2 : String)
    (hab : a ≠ b) (hq : st.waitingQueue = [])
    (ha : inRoom st a = false) (hb : inRoom st b = false)
    (h1 : admitted st ua t1 = true) (h2 : admitted (join_queue st a ua t1).1 ub t2 = true) :
    (sharedRoom (join_queue (join_queue st a ua t1).1 b ub t2).1 a b = true ↔
      Accepts ua.genderFilter ub.gender ∧ Accepts ub.genderFilter ua.gender) ∧
    (sharedRoom (join_queue (join_queue st a ua t1).1 b ub t2).1 b a = true ↔
      Accepts ua.genderFilter ub.gender ∧ Accepts ub.genderFilter ua.gender) := by
  have hs1 := join_queue_first st a ua t1 hq ha h1
  have ha1 : inRoom (join_queue st a ua t1).1 a = false := by rw [hs1]; exact ha
  have hb1 : inRoom (join_queue st a ua t1).1 b = false := by rw [hs1]; exact hb
  have hleave := leaveRoom_of_not_inRoom _ b hb1
  have hmatch : Matchable b ub (queueEntry a ua) ↔
      Accepts ua.genderFilter ub.gender ∧ Accepts ub.genderFilter ua.gender := by
    simp only [Matchable, Accepts, queueEntry_id, queueEntry_gender, queueEntry_genderFilter,
      ne_eq, hab, not_false_eq_true, true_and]
    exact And.comm
  rw [join_queue_of_admitted _ b ub t2 h2]
  by_cases hm : isMatch b ub.gender ub.genderFilter (queueEntry a ua) = true
  · have hacc := hmatch.1 ((isMatch_iff b ub _).1 hm)
    rw [findMatch_of_some _ b ub 0 (queueEntry a ua)]
    · simp only [hacc, and_self, iff_true]
      have hbm : mkRoomID b a ∈ socketJoin (socketJoin
          (afterCheck (join_queue st a ua t1).1 b ub t2).rooms b (mkRoomID b a)) a (mkRoomID b a) b :=
        mem_socketJoin_of_mem _ _ _ _ _ (mem_socketJoin_self _ _ _)
      have ham : mkRoomID b a ∈ socketJoin (socketJoin
          (afterCheck (join_queue st a ua t1).1 b ub t2).rooms b (mkRoomID b a)) a (mkRoomID b a) a :=
        mem_socketJoin_self _ _ _
      constructor
      · exact List.any_eq_true.2 ⟨_, ham, by simpa [isRoom_mkRoomID] using hbm⟩
      · exact List.any_eq_true.2 ⟨_, hbm, by simpa [isRoom_mkRoomID] using ham⟩
    · simp [afterCheck_waitingQueue, hs1, hm]
    · simp [afterCheck_waitingQueue, hs1]
  · have hnacc : ¬ (Accepts ua.genderFilter ub.gender ∧ Accepts ub.genderFilter ua.gender) :=
      fun h => hm ((isMatch_iff b ub _).2 (hmatch.2 h))
    rw [findMatch_of_none]
    · simp only [hnacc, iff_false, Bool.not_eq_true]
      constructor
      · apply sharedRoom_false_of_not_inRoom
        simpa [inRoom, afterCheck, hleave] using ha1
      · apply sharedRoom_false_of_not_inRoom
        simpa [inRoom, afterCheck, hleave] using hb1
    · simp [afterCheck_waitingQueue, hs1, hm]

/-- C2: two distinct sessions `a` and `b`, starting from an empty queue with neither in
a room, both admitted: after `a` joins and then `b` joins they share a room exactly when
each one's filter accepts the other's gender, and after `b` joins and then `a` joins they
share a room under the same condition. -/
theorem match_symmetry (st : State) (a b : String) (ua ub : UserData) (t1 t2 t3 t4 : String)
    (hab : a ≠ b) (hq : st.waitingQueue = [])
    (ha : inRoom st a = false) (hb : inRoom st b = false) :
    (admitted st ua t1 = true → admitted (join_queue st a ua t1).1 ub t2 = true →
      (sharedRoom (join_queue (join_queue st a ua t1).1 b ub t2).1 a b = true ↔
        Accepts ua.genderFilter ub.gender ∧ Accepts ub.genderFilter ua.gender)) ∧
    (admitted st ub t3 = true → admitted (join_queue st b ub t3).1 ua t4 = true →
      (sharedRoom (join_queue (join_queue st b ub t3).1 a ua t4).1 a b = true ↔
        Accepts ua.genderFilter ub.gender ∧ Accepts ub.genderFilter ua.gender)) := by
  constructor
  · intro h1 h2
    exact (pair_join st a b ua ub t1 t2 hab hq ha hb h1 h2).1
  · intro h1 h2
    exact ((pair_join st b a ub ua t3 t4 (Ne.symm hab) hq hb ha h1 h2).2).trans And.comm

theorem match_symmetry_witness :
    (sharedRoom (join_queue (join_queue twoConnected "A" userA "2/3/2026").1 "B" userB "2/3/2026").1
        "A" "B" = true ↔
      Accepts userA.genderFilter userB.gender ∧ Accepts userB.genderFilter userA.gender) ∧
    (sharedRoom (join_queue (join_queue twoConnected "B" userB "2/3/2026").1 "A" userA "2/3/2026").1
        "A" "B" = true ↔
      Accepts userA.genderFilter userB.gender ∧ Accepts userB.genderFilter userA.gender) :=
  ⟨(match_symmetry twoConnected "A" "B" userA userB "2/3/2026" "2/3/2026" "2/3/2026" "2/3/2026"
      (by decide) rfl (by decide) (by decide)).1 (by decide) (by decide),
   (match_symmetry twoConnected "A" "B" userA userB "2/3/2026" "2/3/2026" "2/3/2026" "2/3/2026"
      (by decide) rfl (by decide) (by decide)).2 (by decide) (by decide)⟩

theorem fairnessCheck_any (usage : String → Option UsageRecord) (deviceId today : String) :
    fairnessCheck usage "Any" deviceId today = (usage, true) := by
  simp [fairnessCheck]

theorem fairnessCheck_other (usage : String → Option UsageRecord)
    (genderFilter deviceId today d : String) (h : d ≠ deviceId) :
    (fairnessCheck usage genderFilter deviceId today).1 d = usage d := by
  unfold fairnessCheck
  split
  · cases hu : usage deviceId with
    | none => simp [DAILY_LIMIT, h]
    | some r =>
        by_cases hd : r.date = today
        · by_cases hc : DAILY_LIMIT ≤ r.count <;> simp [hu, hd, hc, h]
        · simp [hu, hd, DAILY_LIMIT, h]
  · rfl

theorem fairnessCheck_new (usage : String → Option UsageRecord)
    (genderFilter deviceId today : String) (hf : genderFilter ≠ "Any")
    (hu : usage deviceId = none) :
    (fairnessCheck usage genderFilter deviceId today).1 deviceId =
        some { count := 1, date := today } ∧
      (fairnessCheck usage genderFilter deviceId today).2 = true := by
  simp [fairnessCheck, hf, hu, DAILY_LIMIT]

theorem fairnessCheck_other_day (usage : String → Option UsageRecord)
    (genderFilter deviceId today : String) (r : UsageRecord) (hf : genderFilter ≠ "Any")
    (hu : usage deviceId = some r) (hd : r.date ≠ today) :
    (fairnessCheck usage genderFilter deviceId today).1 deviceId =
        some { count := 1, date := today } ∧
      (fairnessCheck usage genderFilter deviceId today).2 = true := by
  simp [fairnessCheck, hf, hu, hd, DAILY_LIMIT]

theorem fairnessCheck_same_day_below (usage : String → Option UsageRecord)
    (genderFilter deviceId today : String) (c : Nat) (hf : genderFilter ≠ "Any")
    (hu : usage deviceId = some { count := c, date := today }) (hc : c < DAILY_LIMIT) :
    (fairnessCheck usage genderFilter deviceId today).1 deviceId =
        some { count := c + 1, date := today } ∧
      (fairnessCheck usage genderFilter deviceId today).2 = true := by
  simp [fairnessCheck, hf, hu, Nat.not_le.2 hc]

theorem fairnessCheck_same_day_limit (usage : String → Option UsageRecord)
    (genderFilter deviceId today : String) (c : Nat) (hf : genderFilter ≠ "Any")
    (hu : usage deviceId = some { count := c, date := today }) (hc : DAILY_LIMIT ≤ c) :
    fairnessCheck usage genderFilter deviceId today = (usage, false) := by
  simp [fairnessCheck, hf, hu, hc]

theorem findMatch_userUsage (st : State) (sid : String) (userData : UserData) :
    (findMatch st sid userData).1.userUsage = st.userUsage := by
  unfold findMatch
  split
  · split <;> rfl
  · rfl

theorem join_queue_userUsage (st : State) (sid : String) (userData : UserData)
    (today : String) :
    (join_queue st sid userData today).1.userUsage =
      (fairnessCheck st.userUsage userData.genderFilter userData.deviceId today).1 := by
  cases h : admitted st userData today with
  | true => rw [join_queue_of_admitted st sid userData today h, findMatch_userUsage]; rfl
  | false => rw [join_queue_of_not_admitted st sid userData today h]; rfl

theorem report_user_userUsage (st : State) (sid : String) :
    (report_user st sid).1.userUsage = st.userUsage := leaveRoom_userUsage st sid

theorem disconnect_userUsage (st : State) (sid : String) :
    (disconnect st sid).1.userUsage = st.userUsage := by
  simp only [disconnect, onDisconnect]
  exact leaveRoom_userUsage _ sid

theorem step_userUsage_of_not_filteredJoin (st : State) (e : Event) (d : String)
    (h : filteredJoinOf d e = false) : (step st e).1.userUsage d = st.userUsage d := by
  cases e with
  | connection sid => rfl
  | join_queue sid userData today =>
      simp only [step, join_queue_userUsage]
      by_cases hf : userData.genderFilter = "Any"
      · rw [hf, fairnessCheck_any]
      · by_cases hd : userData.deviceId = d
        · simp [filteredJoinOf, hf, hd] at h
        · exact fairnessCheck_other _ _ _ _ _ (Ne.symm hd)
  | report_user sid => simp [step, report_user_userUsage]
  | send_message sid data => rfl
  | disconnect sid => simp [step, disconnect_userUsage]

theorem admitted_iff_of_ledgerAfter (st : State) (userData : UserData) (t : String) (k : Nat)
    (hf : userData.genderFilter ≠ "Any")
    (hinv : st.userUsage userData.deviceId = ledgerAfter t k) :
    (admitted st userData t = true ↔ k < DAILY_LIMIT) ∧
      (fairnessCheck st.userUsage userData.genderFilter userData.deviceId t).1 userData.deviceId
        = ledgerAfter t (k + 1) := by
  unfold admitted
  by_cases hk : k = 0
  · subst hk
    have hnone : st.userUsage userData.deviceId = none := by simpa [ledgerAfter] using hinv
    obtain ⟨h1, h2⟩ := fairnessCheck_new st.userUsage _ _ t hf hnone
    simp [h1, h2, ledgerAfter, DAILY_LIMIT]
  · have hsome : st.userUsage userData.deviceId =
        some { count := min k DAILY_LIMIT, date := t } := by simpa [ledgerAfter, hk] using hinv
    by_cases hlt : k < DAILY_LIMIT
    · have hmin : min k DAILY_LIMIT = k := Nat.min_eq_left (Nat.le_of_lt hlt)
      rw [hmin] at hsome
      obtain ⟨h1, h2⟩ := fairnessCheck_same_day_below st.userUsage _ _ t k hf hsome hlt
      have hmin2 : min (k + 1) DAILY_LIMIT = k + 1 := Nat.min_eq_left hlt
      simp [h1, h2, hlt, ledgerAfter, hmin2]
    · have hge : DAILY_LIMIT ≤ k := Nat.le_of_not_lt hlt
      have hmin : min k DAILY_LIMIT = DAILY_LIMIT := Nat.min_eq_right hge
      have hmin2 : min (k + 1) DAILY_LIMIT = DAILY_LIMIT :=
        Nat.min_eq_right (Nat.le_succ_of_le hge)
      have h := fairnessCheck_same_day_limit st.userUsage _ _ t (min k DAILY_LIMIT) hf hsome
        (by rw [hmin])
      simp [h, hlt, ledgerAfter, hmin2, hsome, hmin]

theorem step_ledgerAfter (st : State) (e : Event) (d t : String) (k : Nat)
    (hinv : st.userUsage d = ledgerAfter t k) (hday : onDay d t e) :
    (step st e).1.userUsage d = ledgerAfter t (k + if filteredJoinOf d e then 1 else 0) := by
  cases hfj : filteredJoinOf d e with
  | false => simpa [step_userUsage_of_not_filteredJoin st e d hfj] using hinv
  | true =>
      cases e with
      | join_queue sid userData today =>
          simp only [filteredJoinOf, Bool.and_eq_true, beq_iff_eq, bne_iff_ne, ne_eq] at hfj
          obtain ⟨hd, hf⟩ := hfj
          have ht : today = t := hday hd hf
          subst ht
          subst hd
          simp only [step, join_queue_userUsage, if_true]
          exact (admitted_iff_of_ledgerAfter st userData today k hf hinv).2
      | connection sid => simp [filteredJoinOf] at hfj
      | report_user sid => simp [filteredJoinOf] at hfj
      | send_message sid data => simp [filteredJoinOf] at hfj
      | disconnect sid => simp [filteredJoinOf] at hfj

theorem run_append (st : State) (xs ys : List Event) :
    run st (xs ++ ys) = run (run st xs) ys := by
  induction xs generalizing st with
  | nil => rfl
  | cons x xs ih => simp [run, ih]

theorem run_ledgerAfter (evs : List Event) (st : State) (d t : String) (k : Nat)
    (hinv : st.userUsage d = ledgerAfter t k) (hday : ∀ e ∈ evs, onDay d t e) :
    (run st evs).userUsage d = ledgerAfter t (k + evs.countP (filteredJoinOf d)) := by
  induction evs generalizing st k with
  | nil => simpa [run] using hinv
  | cons e es ih =>
      have h1 := step_ledgerAfter st e d t k hinv (hday e (List.mem_cons_self _ _))
      have h2 := ih (step st e).1 _ h1 (fun x hx => hday x (List.mem_cons_of_mem _ hx))
      rw [run, h2, List.countP_cons, Nat.add_assoc, Nat.add_comm (List.countP _ es)]

theorem countOf_of_ledgerAfter (st : State) (d t : String) (k : Nat)
    (h : st.userUsage d = ledgerAfter t k) : countOf st d = min k DAILY_LIMIT := by
  unfold countOf
  rw [h]
  by_cases hk : k = 0 <;> simp [ledgerAfter, hk]

/-- C4: a device `d` with no usage record issues filtered `join_queue` requests on day
`t`, among any other events: the `k`-th of them is admitted exactly when `k ≤ 10`, an
admitted one raises the stored count by one and a rejected one leaves it, and after
`n` of them the stored count is `min n 10` (with date `t` once `n > 0`). -/
theorem rate_limit (st : State) (d t : String) (evs : List Event)
    (hnew : st.userUsage d = none) (hday : ∀ e ∈ evs, onDay d t e) :
    (∀ pre post sid userData today,
        evs = pre ++ Event.join_queue sid userData today :: post →
        userData.deviceId = d → userData.genderFilter ≠ "Any" →
        (admitted (run st pre) userData today = true ↔
          pre.countP (filteredJoinOf d) + 1 ≤ 10) ∧
        (admitted (run st pre) userData today = true →
          countOf (step (run st pre) (Event.join_queue sid userData today)).1 d =
            countOf (run st pre) d + 1) ∧
        (admitted (run st pre) userData today = false →
          countOf (step (run st pre) (Event.join_queue sid userData today)).1 d =
            countOf (run st pre) d)) ∧
    countOf (run st evs) d = min (evs.countP (filteredJoinOf d)) 10 ∧
    (0 < evs.countP (filteredJoinOf d) →
      (run st evs).userUsage d =
        some { count := min (evs.countP (filteredJoinOf d)) 10, date := t }) := by
  have h0 : st.userUsage d = ledgerAfter t 0 := by simpa [ledgerAfter] using hnew
  refine ⟨?_, ?_, ?_⟩
  · intro pre post sid userData today hsplit hd hf
    have hmem : Event.join_queue sid userData today ∈ evs := by
      rw [hsplit]; simp
    have ht : today = t := hday _ hmem hd hf
    subst ht
    subst hd
    have hpre : ∀ e ∈ pre, onDay userData.deviceId today e := fun e he =>
      hday e (by rw [hsplit]; exact List.mem_append_left _ he)
    have hinv := run_ledgerAfter pre st userData.deviceId today 0 h0 hpre
    have hadm := admitted_iff_of_ledgerAfter (run st pre) userData today _ hf hinv
    have hc0 := countOf_of_ledgerAfter (run st pre) userData.deviceId today _ hinv
    have hstep : (step (run st pre) (Event.join_queue sid userData today)).1.userUsage
        userData.deviceId = ledgerAfter today (0 + pre.countP (filteredJoinOf userData.deviceId) + 1) := by
      simp only [step, join_queue_userUsage]
      exact hadm.2
    have hc1 := countOf_of_ledgerAfter _ userData.deviceId today _ hstep
    simp only [DAILY_LIMIT] at hadm hc0 hc1
    refine ⟨?_, ?_, ?_⟩
    · rw [hadm.1]; omega
    · intro ha
      have := hadm.1.1 ha
      omega
    · intro ha
      have : ¬ (0 + pre.countP (filteredJoinOf userData.deviceId) < 10) := by
        intro hlt
        rw [hadm.1.2 hlt] at ha
        exact Bool.noConfusion ha
      omega
  · have hinv := run_ledgerAfter evs st d t 0 h0 hday
    have := countOf_of_ledgerAfter _ d t _ hinv
    simpa [DAILY_LIMIT] using this
  · intro hpos
    have hinv := run_ledgerAfter evs st d t 0 h0 hday
    rw [hinv]
    have hne : ¬ (evs.countP (filteredJoinOf d) = 0) := by omega
    simp only [ledgerAfter, DAILY_LIMIT, Nat.zero_add, if_neg hne]

theorem rate_limit_witness :
    init.userUsage "dev_x" = none ∧ (∀ e ∈ busyDay, onDay "dev_x" "2/3/2026" e) ∧
    busyDay.countP (filteredJoinOf "dev_x") = 12 ∧
    countOf (run init busyDay) "dev_x" = 10 ∧
    (run init busyDay).userUsage "dev_x" = some { count := 10, date := "2/3/2026" } :=
  ⟨rfl, by decide, by decide,
    (rate_limit init "dev_x" "2/3/2026" busyDay rfl (by decide)).2.1,
    (rate_limit init "dev_x" "2/3/2026" busyDay rfl (by decide)).2.2 (by decide)⟩

/-- C3: after session "A" issues `join_queue` twice in a row, the queue holds two
entries with id "A": the second request does not remove the entry of the first. -/
theorem rejoin_duplicates_entry :
    Reachable (run init rejoinEvents) ∧
    (run init rejoinEvents).waitingQueue = [queueEntry "A" userA, queueEntry "A" userA] ∧
    ((run init rejoinEvents).waitingQueue.filter (fun u => u.id = "A")).length = 2 :=
  ⟨⟨rejoinEvents, rfl⟩, by decide, by decide⟩

/-- C5: with two entries of "A" in the queue, "B" is matched with the first and "C"
with the second: "A" is then in the rooms "room_B_A" and "room_C_A" at once. -/
theorem session_in_two_rooms :
    Reachable (run init twoRoomsEvents) ∧
    (run init twoRoomsEvents).rooms "A" = ["A", "room_B_A", "room_C_A"] ∧
    (run init twoRoomsEvents).rooms "B" = ["B", "room_B_A"] ∧
    (run init twoRoomsEvents).rooms "C" = ["C", "room_C_A"] ∧
    ((run init twoRoomsEvents).rooms "A").countP isRoom = 2 :=
  ⟨⟨twoRoomsEvents, rfl⟩, by decide, by decide, by decide, by decide⟩

/-- The two outcomes of the scan. -/
theorem findMatch_cases (st : State) (sid : String) (userData : UserData) :
    (∃ i partner, st.waitingQueue.findIdx? (isMatch sid userData.gender userData.genderFilter)
          = some i ∧ st.waitingQueue.get? i = some partner ∧
        findMatch st sid userData =
          ({ st with waitingQueue := st.waitingQueue.eraseIdx i,
                     rooms := socketJoin (socketJoin st.rooms sid (mkRoomID sid partner.id))
                        partner.id (mkRoomID sid partner.id) },
           emitToRoom (socketJoin (socketJoin st.rooms sid (mkRoomID sid partner.id))
                        partner.id (mkRoomID sid partner.id)) (mkRoomID sid partner.id)
             [OutEvent.match_found (mkRoomID sid partner.id)])) ∨
    (st.waitingQueue.findIdx? (isMatch sid userData.gender userData.genderFilter) = none ∧
      findMatch st sid userData =
        ({ st with waitingQueue := st.waitingQueue ++ [queueEntry sid userData] }, emitNone)) := by
  cases h : st.waitingQueue.findIdx? (isMatch sid userData.gender userData.genderFilter) with
  | none => exact Or.inr ⟨rfl, findMatch_of_none st sid userData h⟩
  | some i =>
      have hlt : i < st.waitingQueue.length := (List.findIdx?_eq_some_iff_findIdx_eq.1 h).1
      have hget : st.waitingQueue.get? i = some (st.waitingQueue[i]) := by
        simp [List.getElem?_eq_getElem hlt]
      exact Or.inl ⟨i, _, rfl, hget, findMatch_of_some st sid userData i _ h hget⟩

theorem mem_of_get?_eq_some {α : Type} (l : List α) (i : Nat) (a : α)
    (h : l.get? i = some a) : a ∈ l :=
  List.get?_mem h

theorem findMatch_rooms_absent (st : State) (sid : String) (userData : UserData) (r : String)
    (hr : r ≠ sid) (hq : ∀ e ∈ st.waitingQueue, e.id ≠ r) :
    (findMatch st sid userData).1.rooms r = st.rooms r := by
  rcases findMatch_cases st sid userData with ⟨i, partner, _, hget, heq⟩ | ⟨_, heq⟩
  · have hp : partner.id ≠ r := hq partner (mem_of_get?_eq_some _ _ _ hget)
    rw [heq]
    simp [socketJoin, hr, Ne.symm hp]
  · rw [heq]

theorem findMatch_queue_mem (st : State) (sid : String) (userData : UserData) (x : QueueEntry)
    (hx : x ∈ (findMatch st sid userData).1.waitingQueue) :
    x ∈ st.waitingQueue ∨ x = queueEntry sid userData := by
  rcases findMatch_cases st sid userData with ⟨i, partner, _, _, heq⟩ | ⟨_, heq⟩
  · rw [heq] at hx
    exact Or.inl (List.eraseIdx_subset _ _ hx)
  · rw [heq] at hx
    simpa using hx

theorem step_rooms_absent (st : State) (e : Event) (r : String)
    (hr : r ≠ e.sid) (hq : ∀ x ∈ st.waitingQueue, x.id ≠ r) :
    (step st e).1.rooms r = st.rooms r := by
  cases e with
  | connection sid => simp [step, connection, show r ≠ sid from hr]
  | join_queue sid userData today =>
      have hr2 : r ≠ sid := hr
      cases ha : admitted st userData today with
      | true =>
          simp only [step]
          rw [join_queue_of_admitted st sid userData today ha]
          rw [findMatch_rooms_absent _ sid userData r hr2
            (by rw [afterCheck_waitingQueue]; exact hq)]
          exact leaveRoom_rooms_other st sid r hr2
      | false =>
          simp only [step]
          rw [join_queue_of_not_admitted st sid userData today ha]
          exact leaveRoom_rooms_other st sid r hr2
  | report_user sid => exact leaveRoom_rooms_other st sid r hr
  | send_message sid data => rfl
  | disconnect sid =>
      have hr2 : r ≠ sid := hr
      simp only [step, disconnect, onDisconnect]
      rw [leaveRoom_rooms_other _ sid r hr2]
      simp [leaveAll, hr2]

theorem step_queue_mem (st : State) (e : Event) (x : QueueEntry)
    (hx : x ∈ (step st e).1.waitingQueue) : x ∈ st.waitingQueue ∨ x.id = e.sid := by
  cases e with
  | connection sid => exact Or.inl hx
  | join_queue sid userData today =>
      cases ha : admitted st userData today with
      | true =>
          simp only [step] at hx
          rw [join_queue_of_admitted st sid userData today ha] at hx
          rcases findMatch_queue_mem _ sid userData x hx with h | h
          · rw [afterCheck_waitingQueue] at h; exact Or.inl h
          · right; rw [h]; rfl
      | false =>
          simp only [step] at hx
          rw [join_queue_of_not_admitted st sid userData today ha] at hx
          rw [afterCheck_waitingQueue] at hx; exact Or.inl hx
  | report_user sid =>
      simp only [step, report_user, leaveRoom_waitingQueue] at hx
      exact Or.inl hx
  | send_message sid data => exact Or.inl hx
  | disconnect sid =>
      simp only [step, disconnect, onDisconnect, leaveRoom_waitingQueue] at hx
      exact Or.inl (List.mem_of_mem_filter hx)

/-- A session that no event names and that has no queue entry keeps its rooms. -/
theorem run_rooms_absent (evs : List Event) (st : State) (r : String)
    (hev : ∀ e ∈ evs, r ≠ e.sid) (hq : ∀ x ∈ st.waitingQueue, x.id ≠ r) :
    (run st evs).rooms r = st.rooms r := by
  induction evs generalizing st with
  | nil => rfl
  | cons e es ih =>
      have hre : r ≠ e.sid := hev e (List.mem_cons_self _ _)
      rw [run, ih (step st e).1 (fun x hx => hev x (List.mem_cons_of_mem _ hx)),
        step_rooms_absent st e r hre hq]
      intro x hx
      rcases step_queue_mem st e x hx with h | h
      · exact hq x h
      · rw [h]; exact Ne.symm hre

theorem pairedState_rooms (r : String) :
    pairedState.rooms r =
      if r = "A" then ["A", "room_B_A"] else if r = "B" then ["B", "room_B_A"]
      else if r = "C" then ["C"] else [] := by
  by_cases hA : r = "A"
  · subst hA; decide
  · by_cases hB : r = "B"
    · subst hB; decide
    · by_cases hC : r = "C"
      · subst hC; decide
      · simp only [hA, hB, hC, if_false]
        have h := run_rooms_absent pairedEvents init r
          (by simp [pairedEvents, Event.sid, hA, hB, hC]) (by simp [init])
        simpa [pairedState, init] using h

theorem pairedState_reachable : Reachable pairedState := ⟨pairedEvents, rfl⟩

theorem leaveAll_find (rooms : String → List String) (sid : String) :
    (leaveAll rooms sid sid).find? isRoom = none := by
  simp [leaveAll]

/-- The `disconnect` listener finds `socket.rooms` empty, so its `leaveRoom` emits nothing. -/
theorem disconnect_emits_nothing (st : State) (sid r : String) :
    (disconnect st sid).2 r = [] := by
  simp [disconnect, onDisconnect, leaveRoom, leaveAll, emitNone]

/-- C6 (as stated, refuted): in the reachable state where "A" and "B" are the members of
"room_B_A", session "C" is not a member of that room, yet its `send_message` naming the
room is delivered to "A" and to "B". -/
theorem send_message_from_outsider_delivered :
    Reachable pairedState ∧ "room_B_A" ∉ pairedState.rooms "C" ∧
    (step pairedState (Event.send_message "C" hello)).2 "A" =
      [OutEvent.receive_message "b" "hi"] ∧
    (step pairedState (Event.send_message "C" hello)).2 "B" =
      [OutEvent.receive_message "b" "hi"] :=
  ⟨pairedState_reachable, by decide, by decide, by decide⟩

/-- C6 (amended): a `send_message` event from `sid` naming room `X` changes no state and
delivers one `receive_message`, with the given sender and message, to every session that
is a member of `X` and not a member of the room named `sid`, whether or not `sid` is a
member of `X`; it delivers nothing to a session that is not a member of `X` and nothing
to a member of the room named `sid`. -/
theorem send_message_relays_to_members (st : State) (sid : String) (data : MessageData) :
    (step st (Event.send_message sid data)).1 = st ∧
    (∀ r, data.roomID ∈ st.rooms r → sid ∉ st.rooms r →
      (step st (Event.send_message sid data)).2 r =
        [OutEvent.receive_message data.sender data.message]) ∧
    (∀ r, data.roomID ∉ st.rooms r → (step st (Event.send_message sid data)).2 r = []) ∧
    (∀ r, sid ∈ st.rooms r → (step st (Event.send_message sid data)).2 r = []) := by
  refine ⟨rfl, ?_, ?_, ?_⟩
  · intro r hmem hnot
    simp [step, send_message, emitToRoomExcept, hmem, hnot]
  · intro r hmem
    simp [step, send_message, emitToRoomExcept, hmem]
  · intro r hin
    simp [step, send_message, emitToRoomExcept, hin]

/-- For a sender in the room of its own id: when `S` and `P` are the two members of room
`X`, `S` is in the room named `S` and `P` is not, a `send_message` event from `S` naming
`X` delivers exactly one `receive_message`, with the given message and sender, to `P`,
nothing to `S` and nothing to any other session; the state is unchanged. -/
theorem send_message_between_members_in_own_room (st : State)
    (S P X message sender : String)
    (hmem : ∀ r, X ∈ st.rooms r ↔ r = S ∨ r = P)
    (hown : S ∈ st.rooms S) (hP : S ∉ st.rooms P) :
    (step st (Event.send_message S { roomID := X, message := message, sender := sender })).2 P
        = [OutEvent.receive_message sender message] ∧
    (step st (Event.send_message S { roomID := X, message := message, sender := sender })).2 S
        = [] ∧
    (∀ r, r ≠ P →
      (step st (Event.send_message S { roomID := X, message := message, sender := sender })).2 r
        = []) ∧
    (step st (Event.send_message S { roomID := X, message := message, sender := sender })).1
        = st := by
  refine ⟨?_, ?_, ?_, rfl⟩
  · have : X ∈ st.rooms P := (hmem P).2 (Or.inr rfl)
    simp [step, send_message, emitToRoomExcept, this, hP]
  · simp [step, send_message, emitToRoomExcept, hown]
  · intro r hr
    by_cases hrS : r = S
    · subst hrS
      simp [step, send_message, emitToRoomExcept, hown]
    · have : X ∉ st.rooms r := fun h => by
        rcases (hmem r).1 h with h | h
        · exact hrS h
        · exact hr h
      simp [step, send_message, emitToRoomExcept, this]

theorem pairedState_members (r : String) :
    "room_B_A" ∈ pairedState.rooms r ↔ r = "B" ∨ r = "A" := by
  rw [pairedState_rooms]
  by_cases hA : r = "A"
  · simp [hA]
  · by_cases hB : r = "B"
    · simp [hB]
    · by_cases hC : r = "C"
      · subst hC; decide
      · simp [hA, hB, hC]

theorem send_message_between_members_in_own_room_example :
    (step pairedState (Event.send_message "B" hello)).2 "A" = [OutEvent.receive_message "b" "hi"] ∧
    (step pairedState (Event.send_message "B" hello)).2 "B" = [] ∧
    (∀ r, r ≠ "A" → (step pairedState (Event.send_message "B" hello)).2 r = []) ∧
    (step pairedState (Event.send_message "B" hello)).1 = pairedState :=
  send_message_between_members_in_own_room pairedState "B" "A" "room_B_A" "hi" "b"
    pairedState_members (by decide) (by decide)

/-- C7: session "room_Z" leaves the room of its own id at its first `join_queue` (its id
passes the test of line 30) and is then matched with "B". In the state where "room_Z" and
"B" are the two members of "room_B_room_Z", a `send_message` event from "room_Z" naming
that room is delivered to "B" and also back to "room_Z" itself. -/
theorem send_message_echoes_to_sender :
    Reachable echoState ∧
    echoState.rooms "room_Z" = ["room_B_room_Z"] ∧
    echoState.rooms "B" = ["B", "room_B_room_Z"] ∧
    (∀ r, "room_B_room_Z" ∈ echoState.rooms r ↔ r = "room_Z" ∨ r = "B") ∧
    (step echoState (Event.send_message "room_Z" helloZ)).2 "B" =
      [OutEvent.receive_message "z" "hi"] ∧
    (step echoState (Event.send_message "room_Z" helloZ)).2 "room_Z" =
      [OutEvent.receive_message "z" "hi"] := by
  refine ⟨⟨echoEvents, rfl⟩, by decide, by decide, ?_, by decide, by decide⟩
  intro r
  by_cases hZ : r = "room_Z"
  · subst hZ; simp; decide
  · by_cases hB : r = "B"
    · subst hB; simp; decide
    · have h := run_rooms_absent echoEvents init r
        (by simp [echoEvents, Event.sid, hZ, hB]) (by simp [init])
      have h2 : echoState.rooms r = [] := by simpa [echoState, init] using h
      simp [h2, hZ, hB]

/-- C8 (as stated, refuted): from the reachable state where "A" and "B" are the members of
"room_B_A", `leaveRoom` of "B" (here through `report_user`) clears the membership of "B"
only: "A" stays in the room, which then has exactly one member in a reachable state. -/
theorem leaveRoom_keeps_partner_in_room :
    "room_B_A" ∈ pairedState.rooms "A" ∧ "room_B_A" ∈ pairedState.rooms "B" ∧
    Reachable (step pairedState (Event.report_user "B")).1 ∧
    "room_B_A" ∈ (leaveRoom pairedState "B").1.rooms "A" ∧
    (∀ r, "room_B_A" ∈ (step pairedState (Event.report_user "B")).1.rooms r ↔ r = "A") := by
  refine ⟨by decide, by decide, ⟨pairedEvents ++ [Event.report_user "B"], ?_⟩, by decide, ?_⟩
  · rw [run_append]; rfl
  · intro r
    by_cases hB : r = "B"
    · subst hB; decide
    · have h : (step pairedState (Event.report_user "B")).1.rooms r = pairedState.rooms r :=
        leaveRoom_rooms_other pairedState "B" r hB
      rw [h, pairedState_members]
      simp [hB]

/-- C8 (amended): when `leaveRoom` of `S` finds room `X` and `P` is another member of `X`,
afterwards `S` is not a member of `X` and the rooms of every session other than `S` are
as before, so `P` is still a member of `X`. Queue and ledger are untouched. -/
theorem leaveRoom_clears_leaver_only (st : State) (S P X : String)
    (hfind : (st.rooms S).find? isRoom = some X) (hP : X ∈ st.rooms P) (hne : P ≠ S) :
    X ∉ (leaveRoom st S).1.rooms S ∧
    X ∈ (leaveRoom st S).1.rooms P ∧
    (∀ r, r ≠ S → (leaveRoom st S).1.rooms r = st.rooms r) ∧
    (leaveRoom st S).1.waitingQueue = st.waitingQueue ∧
    (leaveRoom st S).1.userUsage = st.userUsage := by
  refine ⟨?_, ?_, fun r hr => leaveRoom_rooms_other st S r hr,
    leaveRoom_waitingQueue st S, leaveRoom_userUsage st S⟩
  · simp [leaveRoom, hfind, socketLeave]
  · rw [leaveRoom_rooms_other st S P hne]; exact hP

theorem leaveRoom_clears_leaver_only_witness :
    "room_B_A" ∈ pairedState.rooms "A" ∧
    "room_B_A" ∉ (leaveRoom pairedState "A").1.rooms "A" ∧
    "room_B_A" ∈ (leaveRoom pairedState "A").1.rooms "B" ∧
    (∀ r, r ≠ "A" → (leaveRoom pairedState "A").1.rooms r = pairedState.rooms r) ∧
    (leaveRoom pairedState "A").1.waitingQueue = pairedState.waitingQueue ∧
    (leaveRoom pairedState "A").1.userUsage = pairedState.userUsage :=
  ⟨by decide,
   leaveRoom_clears_leaver_only pairedState "A" "B" "room_B_A" (by decide) (by decide)
    (by decide)⟩

/-- C9: in the state where "A" and "B" are the members of "room_B_A", a `disconnect` of
"A" delivers nothing to "B" (no notice, no `partner_left`), whereas a `report_user` of
"A" in the same state delivers both. -/
theorem disconnect_sends_no_partner_left :
    Reachable pairedState ∧
    "room_B_A" ∈ pairedState.rooms "A" ∧ "room_B_A" ∈ pairedState.rooms "B" ∧
    (step pairedState (Event.disconnect "A")).2 "B" = [] ∧
    (step pairedState (Event.report_user "A")).2 "B" = [leftNotice, OutEvent.partner_left] :=
  ⟨pairedState_reachable, by decide, by decide, by decide, by decide⟩

/-- C10: after a `disconnect` event of `sid` the queue is the old queue without the
entries whose id is `sid`: none of them is left, every other entry is still there, and
the order of the remaining entries is the old one. -/
theorem disconnect_purges_queue (st : State) (sid : String) :
    (∀ u ∈ (step st (Event.disconnect sid)).1.waitingQueue, u.id ≠ sid) ∧
    (∀ u ∈ st.waitingQueue, u.id ≠ sid → u ∈ (step st (Event.disconnect sid)).1.waitingQueue) ∧
    (step st (Event.disconnect sid)).1.waitingQueue =
      st.waitingQueue.filter (fun u => u.id ≠ sid) ∧
    ((step st (Event.disconnect sid)).1.waitingQueue).Sublist st.waitingQueue := by
  have hq : (step st (Event.disconnect sid)).1.waitingQueue =
      st.waitingQueue.filter (fun u => u.id ≠ sid) := by
    simp only [step, disconnect, onDisconnect, leaveRoom_waitingQueue]
  refine ⟨?_, ?_, hq, ?_⟩
  · intro u hu
    rw [hq] at hu
    simpa using (List.mem_filter.1 hu).2
  · intro u hu hne
    rw [hq]
    exact List.mem_filter.2 ⟨hu, by simpa using hne⟩
  · rw [hq]
    exact List.filter_sublist _

/-! ### Rejection, "Any" requests and day rollover -/

theorem leaveRoom_rooms_subset (st : State) (sid r x : String)
    (h : x ∈ (leaveRoom st sid).1.rooms r) : x ∈ st.rooms r := by
  unfold leaveRoom at h
  split at h
  · simp only [socketLeave] at h
    split at h
    · exact (List.mem_filter.1 h).1
    · exact h
  · exact h

/-- A socket that is in the room of its own id receives nothing from its own `leaveRoom`. -/
theorem leaveRoom_emit_self (st : State) (sid : String) (hown : sid ∈ st.rooms sid) :
    (leaveRoom st sid).2 sid = [] := by
  unfold leaveRoom
  split <;> simp [emitToRoomExcept, emitNone, hown]

theorem leaveRoom_emit_mem (st : State) (sid r : String) (e : OutEvent)
    (h : e ∈ (leaveRoom st sid).2 r) : e = leftNotice ∨ e = OutEvent.partner_left := by
  unfold leaveRoom at h
  split at h
  · simp only [emitToRoomExcept] at h
    split at h
    · simpa using h
    · simp at h
  · simp [emitNone] at h

theorem limitNotice_not_mem_leaveRoom (st : State) (sid r : String) :
    limitNotice ∉ (leaveRoom st sid).2 r := by
  intro h
  rcases leaveRoom_emit_mem st sid r _ h with h | h
  · exact absurd h (by decide)
  · exact absurd h (by decide)

/-- C11: when the device's record has today's date and a count of 10 or more, a filtered
`join_queue` request is rejected: the queue and the whole ledger are as before, no session
gains a room, no `match_found` is sent, the rejection message is delivered to the
requester, after what its own `leaveRoom` sent it (nothing when it is in the room of its
own id), and the rejection message reaches no other session. -/
theorem limit_reached_rejects (st : State) (sid : String) (userData : UserData)
    (today : String) (c : Nat) (hf : userData.genderFilter ≠ "Any")
    (hu : st.userUsage userData.deviceId = some { count := c, date := today })
    (hc : 10 ≤ c) :
    admitted st userData today = false ∧
    (join_queue st sid userData today).1.waitingQueue = st.waitingQueue ∧
    (join_queue st sid userData today).1.userUsage = st.userUsage ∧
    (∀ r x, x ∈ (join_queue st sid userData today).1.rooms r → x ∈ st.rooms r) ∧
    limitNotice ∈ (join_queue st sid userData today).2 sid ∧
    (join_queue st sid userData today).2 sid = (leaveRoom st sid).2 sid ++ [limitNotice] ∧
    (sid ∈ st.rooms sid → (join_queue st sid userData today).2 sid = [limitNotice]) ∧
    (∀ r, r ≠ sid → limitNotice ∉ (join_queue st sid userData today).2 r) ∧
    (∀ r roomID, OutEvent.match_found roomID ∉ (join_queue st sid userData today).2 r) := by
  have hfc := fairnessCheck_same_day_limit st.userUsage userData.genderFilter userData.deviceId
    today c hf hu hc
  have hadm : admitted st userData today = false := by
    unfold admitted; rw [hfc]
  rw [join_queue_of_not_admitted st sid userData today hadm]
  refine ⟨hadm, afterCheck_waitingQueue st sid userData today, ?_, ?_, ?_, ?_, ?_, ?_, ?_⟩
  · simp only [afterCheck, hfc]
  · intro r x hx
    exact leaveRoom_rooms_subset st sid r x hx
  · simp [emitSeq, emitSelf]
  · simp [emitSeq, emitSelf]
  · intro hown
    simp [emitSeq, emitSelf, leaveRoom_emit_self st sid hown]
  · intro r hr hmem
    simp only [emitSeq, emitSelf, hr, if_false, List.append_nil] at hmem
    exact limitNotice_not_mem_leaveRoom st sid r hmem
  · intro r roomID hmem
    simp only [emitSeq, emitSelf, List.mem_append] at hmem
    rcases hmem with h | h
    · rcases leaveRoom_emit_mem st sid r _ h with h | h <;> simp [leftNotice] at h
    · split at h
      · simp [limitNotice] at h
      · simp at h

theorem limit_reached_rejects_witness :
    (run init busyDay).userUsage userX.deviceId = some { count := 10, date := "2/3/2026" } ∧
    admitted (run init busyDay) userX "2/3/2026" = false ∧
    (join_queue (run init busyDay) "X" userX "2/3/2026").1.waitingQueue =
      (run init busyDay).waitingQueue ∧
    limitNotice ∈ (join_queue (run init busyDay) "X" userX "2/3/2026").2 "X" ∧
    (join_queue (run init busyDay) "X" userX "2/3/2026").2 "X" = [limitNotice] :=
  have h := limit_reached_rejects (run init busyDay) "X" userX "2/3/2026" 10 (by decide)
    (by decide) (by decide)
  ⟨by decide, h.1, h.2.1, h.2.2.2.2.1, h.2.2.2.2.2.2.1 (by decide)⟩

theorem findMatch_emit_mem (st : State) (sid : String) (userData : UserData) (r : String)
    (e : OutEvent) (h : e ∈ (findMatch st sid userData).2 r) :
    ∃ roomID, e = OutEvent.match_found roomID := by
  rcases findMatch_cases st sid userData with ⟨i, partner, _, _, heq⟩ | ⟨_, heq⟩
  · rw [heq] at h
    simp only [emitToRoom] at h
    split at h
    · exact ⟨_, by simpa using h⟩
    · simp at h
  · rw [heq] at h
    simp [emitNone] at h

theorem limitNotice_not_mem_of_admitted (st : State) (sid : String) (userData : UserData)
    (today : String) (hadm : admitted st userData today = true) (r : String) :
    limitNotice ∉ (join_queue st sid userData today).2 r := by
  rw [join_queue_of_admitted st sid userData today hadm]
  intro hmem
  simp only [emitSeq, List.mem_append] at hmem
  rcases hmem with h | h
  · exact limitNotice_not_mem_leaveRoom st sid r h
  · obtain ⟨roomID, hr⟩ := findMatch_emit_mem _ sid userData r _ h
    simp [limitNotice] at hr

/-- C12: a `join_queue` request whose filter is "Any" leaves the whole ledger as it was and
is never rejected, whatever the ledger holds for the device: it goes on to the scan and no
session receives the rejection message. -/
theorem any_filter_skips_ledger (st : State) (sid : String) (userData : UserData)
    (today : String) (hf : userData.genderFilter = "Any") :
    (join_queue st sid userData today).1.userUsage = st.userUsage ∧
    admitted st userData today = true ∧
    (join_queue st sid userData today).1 =
      (findMatch (afterCheck st sid userData today) sid userData).1 ∧
    (∀ r, limitNotice ∉ (join_queue st sid userData today).2 r) := by
  have hfc : fairnessCheck st.userUsage userData.genderFilter userData.deviceId today =
      (st.userUsage, true) := by rw [hf]; exact fairnessCheck_any _ _ _
  have hadm : admitted st userData today = true := by unfold admitted; rw [hfc]
  refine ⟨?_, hadm, ?_, fun r => limitNotice_not_mem_of_admitted st sid userData today hadm r⟩
  · rw [join_queue_userUsage, hfc]
  · rw [join_queue_of_admitted st sid userData today hadm]

theorem any_filter_skips_ledger_witness :
    (run init busyDay).userUsage userXAny.deviceId = some { count := 10, date := "2/3/2026" } ∧
    (join_queue (run init busyDay) "X" userXAny "2/3/2026").1.userUsage =
      (run init busyDay).userUsage ∧
    admitted (run init busyDay) userXAny "2/3/2026" = true :=
  ⟨by decide,
   (any_filter_skips_ledger (run init busyDay) "X" userXAny "2/3/2026" rfl).1,
   (any_filter_skips_ledger (run init busyDay) "X" userXAny "2/3/2026" rfl).2.1⟩

/-- C13: when the device has no record, or a record of another day (with any count), a
filtered `join_queue` request is admitted and leaves the device's record at count 1 with
today's date. -/
theorem day_rollover_resets_count (st : State) (sid : String) (userData : UserData)
    (today : String) (hf : userData.genderFilter ≠ "Any")
    (hrec : st.userUsage userData.deviceId = none ∨
      ∃ r, st.userUsage userData.deviceId = some r ∧ r.date ≠ today) :
    admitted st userData today = true ∧
    (join_queue st sid userData today).1.userUsage userData.deviceId =
      some { count := 1, date := today } ∧
    (∀ r, limitNotice ∉ (join_queue st sid userData today).2 r) := by
  have hfc : (fairnessCheck st.userUsage userData.genderFilter userData.deviceId today).1
        userData.deviceId = some { count := 1, date := today } ∧
      (fairnessCheck st.userUsage userData.genderFilter userData.deviceId today).2 = true := by
    rcases hrec with hnone | ⟨r, hsome, hdate⟩
    · exact fairnessCheck_new _ _ _ _ hf hnone
    · exact fairnessCheck_other_day _ _ _ _ r hf hsome hdate
  have hadm : admitted st userData today = true := hfc.2
  refine ⟨hadm, ?_, fun r => limitNotice_not_mem_of_admitted st sid userData today hadm r⟩
  rw [join_queue_userUsage]
  exact hfc.1

theorem day_rollover_resets_count_witness :
    (run init busyDay).userUsage userX.deviceId = some { count := 10, date := "2/3/2026" } ∧
    admitted (run init busyDay) userX nextDay = true ∧
    (join_queue (run init busyDay) "X" userX nextDay).1.userUsage userX.deviceId =
      some { count := 1, date := nextDay } :=
  ⟨by decide,
   (day_rollover_resets_count (run init busyDay) "X" userX nextDay (by decide)
      (Or.inr ⟨{ count := 10, date := "2/3/2026" }, by decide, by decide⟩)).1,
   (day_rollover_resets_count (run init busyDay) "X" userX nextDay (by decide)
      (Or.inr ⟨{ count := 10, date := "2/3/2026" }, by decide, by decide⟩)).2.1⟩

/-! ### Match and enqueue branches -/

/-- C14: after "A" asked twice and "B" was matched with the first entry of "A", session
"A" is a member of "room_B_A" while its second entry is still in the queue. -/
theorem session_in_room_and_queue :
    Reachable (run init queuedInRoomEvents) ∧
    (run init queuedInRoomEvents).rooms "A" = ["A", "room_B_A"] ∧
    inRoom (run init queuedInRoomEvents) "A" = true ∧
    (run init queuedInRoomEvents).waitingQueue = [queueEntry "A" userA] :=
  ⟨⟨queuedInRoomEvents, rfl⟩, by decide, by decide, by decide⟩

theorem scan_eq_some (q : List QueueEntry) (sid : String) (userData : UserData) (i : Nat)
    (partner : QueueEntry) (hget : q.get? i = some partner)
    (hm : Matchable sid userData partner)
    (hfirst : ∀ j e, j < i → q.get? j = some e → ¬ Matchable sid userData e) :
    q.findIdx? (isMatch sid userData.gender userData.genderFilter) = some i := by
  rw [List.get?_eq_getElem?] at hget
  obtain ⟨hlt, hval⟩ := List.getElem?_eq_some.1 hget
  rw [List.findIdx?_eq_some_iff_getElem]
  refine ⟨hlt, ?_, ?_⟩
  · rw [hval]; exact (isMatch_iff sid userData partner).2 hm
  · intro j hj hp
    have hjl : j < q.length := Nat.lt_trans hj hlt
    refine hfirst j q[j] hj ?_ ((isMatch_iff sid userData _).1 hp)
    simp [List.getElem?_eq_getElem hjl]

theorem socketJoin_other (rooms : String → List String) (sid room r : String) (h : r ≠ sid) :
    socketJoin rooms sid room r = rooms r := by
  simp [socketJoin, h]

/-- C15: an admitted `join_queue` request of `sid` whose scan finds the entry `partner` at
index `i`: the queue loses exactly the entry at index `i` and gains none, both sessions
are members of the room "room_" ++ sid ++ "_" ++ partner.id, and `match_found` with that
room id is delivered to `sid` and to the partner, each after what the `leaveRoom` of `sid`
sent it (nothing, for `sid`, when it is in the room of its own id). -/
theorem match_removes_partner_and_opens_room (st : State) (sid : String)
    (userData : UserData) (today : String) (i : Nat) (partner : QueueEntry)
    (hadm : admitted st userData today = true)
    (hget : st.waitingQueue.get? i = some partner)
    (hm : Matchable sid userData partner)
    (hfirst : ∀ j e, j < i → st.waitingQueue.get? j = some e → ¬ Matchable sid userData e) :
    (join_queue st sid userData today).1.waitingQueue = st.waitingQueue.eraseIdx i ∧
    (join_queue st sid userData today).1.waitingQueue =
      st.waitingQueue.take i ++ st.waitingQueue.drop (i + 1) ∧
    (join_queue st sid userData today).1.waitingQueue.length + 1 = st.waitingQueue.length ∧
    mkRoomID sid partner.id = "room_" ++ sid ++ "_" ++ partner.id ∧
    mkRoomID sid partner.id ∈ (join_queue st sid userData today).1.rooms sid ∧
    mkRoomID sid partner.id ∈ (join_queue st sid userData today).1.rooms partner.id ∧
    OutEvent.match_found (mkRoomID sid partner.id) ∈ (join_queue st sid userData today).2 sid ∧
    OutEvent.match_found (mkRoomID sid partner.id) ∈
      (join_queue st sid userData today).2 partner.id ∧
    (join_queue st sid userData today).2 sid =
      (leaveRoom st sid).2 sid ++ [OutEvent.match_found (mkRoomID sid partner.id)] ∧
    (sid ∈ st.rooms sid → (join_queue st sid userData today).2 sid =
      [OutEvent.match_found (mkRoomID sid partner.id)]) ∧
    (join_queue st sid userData today).2 partner.id =
      (leaveRoom st sid).2 partner.id ++ [OutEvent.match_found (mkRoomID sid partner.id)] := by
  have hidx := scan_eq_some st.waitingQueue sid userData i partner hget hm hfirst
  have hlt : i < st.waitingQueue.length := (List.findIdx?_eq_some_iff_findIdx_eq.1 hidx).1
  have hidx2 : (afterCheck st sid userData today).waitingQueue.findIdx?
      (isMatch sid userData.gender userData.genderFilter) = some i := by
    rw [afterCheck_waitingQueue]; exact hidx
  have hget2 : (afterCheck st sid userData today).waitingQueue.get? i = some partner := by
    rw [afterCheck_waitingQueue]; exact hget
  have hself : mkRoomID sid partner.id ∈
      socketJoin (socketJoin (afterCheck st sid userData today).rooms sid (mkRoomID sid partner.id))
        partner.id (mkRoomID sid partner.id) sid :=
    mem_socketJoin_of_mem _ _ _ _ _ (mem_socketJoin_self _ _ _)
  have hpart : mkRoomID sid partner.id ∈
      socketJoin (socketJoin (afterCheck st sid userData today).rooms sid (mkRoomID sid partner.id))
        partner.id (mkRoomID sid partner.id) partner.id :=
    mem_socketJoin_self _ _ _
  have hq : (join_queue st sid userData today).1.waitingQueue = st.waitingQueue.eraseIdx i := by
    rw [join_queue_of_admitted st sid userData today hadm,
      findMatch_of_some _ sid userData i partner hidx2 hget2]
    simp [afterCheck_waitingQueue]
  refine ⟨hq, ?_, ?_, rfl, ?_, ?_, ?_, ?_, ?_, ?_, ?_⟩
  · rw [hq, List.eraseIdx_eq_take_drop_succ]
  · rw [hq, List.length_eraseIdx, if_pos hlt]
    omega
  · rw [join_queue_of_admitted st sid userData today hadm,
      findMatch_of_some _ sid userData i partner hidx2 hget2]
    exact hself
  · rw [join_queue_of_admitted st sid userData today hadm,
      findMatch_of_some _ sid userData i partner hidx2 hget2]
    exact hpart
  · rw [join_queue_of_admitted st sid userData today hadm,
      findMatch_of_some _ sid userData i partner hidx2 hget2]
    simp [emitSeq, emitToRoom, hself]
  · rw [join_queue_of_admitted st sid userData today hadm,
      findMatch_of_some _ sid userData i partner hidx2 hget2]
    simp [emitSeq, emitToRoom, hpart]
  · rw [join_queue_of_admitted st sid userData today hadm,
      findMatch_of_some _ sid userData i partner hidx2 hget2]
    simp [emitSeq, emitToRoom, hself]
  · intro hown
    rw [join_queue_of_admitted st sid userData today hadm,
      findMatch_of_some _ sid userData i partner hidx2 hget2]
    simp [emitSeq, emitToRoom, hself, leaveRoom_emit_self st sid hown]
  · rw [join_queue_of_admitted st sid userData today hadm,
      findMatch_of_some _ sid userData i partner hidx2 hget2]
    simp [emitSeq, emitToRoom, hpart]

theorem match_removes_partner_and_opens_room_witness :
    (join_queue fifoState "R" fifoRequest "2/3/2026").1.waitingQueue =
      fifoState.waitingQueue.eraseIdx 1 ∧
    "room_R_Q1" ∈ (join_queue fifoState "R" fifoRequest "2/3/2026").1.rooms "R" ∧
    "room_R_Q1" ∈ (join_queue fifoState "R" fifoRequest "2/3/2026").1.rooms "Q1" ∧
    (join_queue fifoState "R" fifoRequest "2/3/2026").2 "R" =
      [OutEvent.match_found "room_R_Q1"] :=
  have h := match_removes_partner_and_opens_room fifoState "R" fifoRequest "2/3/2026" 1
    { id := "Q1", nickname := "q1", gender := "F", genderFilter := "M" }
    (by decide) (by decide) (by decide)
    (fun j e hj hget => by
      have hj0 : j = 0 := by omega
      subst hj0
      have he : e = { id := "Q0", nickname := "q0", gender := "M", genderFilter := "M" } := by
        have h0 : fifoState.waitingQueue.get? 0 =
            some { id := "Q0", nickname := "q0", gender := "M", genderFilter := "M" } := by
          decide
        rw [h0] at hget
        exact (Option.some.inj hget).symm
      subst he
      decide)
  ⟨h.1, h.2.2.2.2.1, h.2.2.2.2.2.1, h.2.2.2.2.2.2.2.2.2.1 (by decide)⟩

/-- C16: an admitted `join_queue` request of `sid` that finds no matchable entry: the queue
afterwards is the old queue followed by one new entry with id `sid` and the gender and
filter of the request; no session gains a room and no `match_found` is sent. -/
theorem no_match_appends_entry (st : State) (sid : String) (userData : UserData)
    (today : String) (hadm : admitted st userData today = true)
    (hno : ∀ e ∈ st.waitingQueue, ¬ Matchable sid userData e) :
    (join_queue st sid userData today).1.waitingQueue =
      st.waitingQueue ++ [queueEntry sid userData] ∧
    (queueEntry sid userData).id = sid ∧
    (queueEntry sid userData).gender = userData.gender ∧
    (queueEntry sid userData).genderFilter = userData.genderFilter ∧
    (join_queue st sid userData today).1.rooms = (leaveRoom st sid).1.rooms ∧
    (∀ r x, x ∈ (join_queue st sid userData today).1.rooms r → x ∈ st.rooms r) ∧
    (∀ r roomID, OutEvent.match_found roomID ∉ (join_queue st sid userData today).2 r) := by
  have hidx : (afterCheck st sid userData today).waitingQueue.findIdx?
      (isMatch sid userData.gender userData.genderFilter) = none := by
    rw [afterCheck_waitingQueue, List.findIdx?_eq_none_iff]
    intro x hx
    cases hp : isMatch sid userData.gender userData.genderFilter x with
    | false => rfl
    | true => exact absurd ((isMatch_iff sid userData x).1 hp) (hno x hx)
  have hrooms : (join_queue st sid userData today).1.rooms = (leaveRoom st sid).1.rooms := by
    rw [join_queue_of_admitted st sid userData today hadm, findMatch_of_none _ sid userData hidx]
    rfl
  refine ⟨?_, rfl, rfl, rfl, hrooms, ?_, ?_⟩
  · rw [join_queue_of_admitted st sid userData today hadm, findMatch_of_none _ sid userData hidx]
    simp [afterCheck_waitingQueue]
  · intro r x hx
    rw [hrooms] at hx
    exact leaveRoom_rooms_subset st sid r x hx
  · intro r roomID hmem
    rw [join_queue_of_admitted st sid userData today hadm,
      findMatch_of_none _ sid userData hidx] at hmem
    simp only [emitSeq, emitNone, List.append_nil] at hmem
    rcases leaveRoom_emit_mem st sid r _ hmem with h | h <;> simp [leftNotice] at h

theorem no_match_appends_entry_witness :
    (join_queue fifoState "R" userF "2/3/2026").1.waitingQueue =
      fifoState.waitingQueue ++ [queueEntry "R" userF] ∧
    (join_queue fifoState "R" userF "2/3/2026").1.rooms = (leaveRoom fifoState "R").1.rooms :=
  have h := no_match_appends_entry fifoState "R" userF "2/3/2026" (by decide) (by decide)
  ⟨h.1, h.2.2.2.2.1⟩

/-! ### No missed match in the queue -/

theorem NoMissedMatch_of_subset (q q2 : List QueueEntry) (hsub : ∀ e ∈ q2, e ∈ q)
    (h : NoMissedMatch q) : NoMissedMatch q2 :=
  fun e1 h1 e2 h2 => h e1 (hsub e1 h1) e2 (hsub e2 h2)

theorem findMatch_NoMissedMatch (st : State) (sid : String) (userData : UserData)
    (h : NoMissedMatch st.waitingQueue) :
    NoMissedMatch (findMatch st sid userData).1.waitingQueue := by
  rcases findMatch_cases st sid userData with ⟨i, partner, _, _, heq⟩ | ⟨hnone, heq⟩
  · rw [heq]
    exact NoMissedMatch_of_subset _ _ (fun e he => List.eraseIdx_subset _ _ he) h
  · rw [heq]
    have hno : ∀ x ∈ st.waitingQueue, x.id ≠ sid →
        ¬ (Accepts userData.genderFilter x.gender ∧ Accepts x.genderFilter userData.gender) := by
      intro x hx hid hacc
      have hfalse := (List.findIdx?_eq_none_iff.1 hnone) x hx
      have htrue := (isMatch_iff sid userData x).2 ⟨hid, hacc.1, hacc.2⟩
      rw [hfalse] at htrue
      exact Bool.noConfusion htrue
    intro e1 h1 e2 h2 hne hacc
    simp only [List.mem_append, List.mem_singleton] at h1 h2
    rcases h1 with h1 | h1 <;> rcases h2 with h2 | h2
    · exact h e1 h1 e2 h2 hne hacc
    · subst h2
      exact hno e1 h1 hne ⟨hacc.2, hacc.1⟩
    · subst h1
      exact hno e2 h2 (Ne.symm hne) hacc
    · subst h1; subst h2
      exact hne rfl

theorem step_NoMissedMatch (st : State) (e : Event) (h : NoMissedMatch st.waitingQueue) :
    NoMissedMatch (step st e).1.waitingQueue := by
  cases e with
  | connection sid => exact h
  | join_queue sid userData today =>
      cases ha : admitted st userData today with
      | true =>
          simp only [step]
          rw [join_queue_of_admitted st sid userData today ha]
          apply findMatch_NoMissedMatch
          rw [afterCheck_waitingQueue]; exact h
      | false =>
          simp only [step]
          rw [join_queue_of_not_admitted st sid userData today ha, afterCheck_waitingQueue]
          exact h
  | report_user sid =>
      simp only [step, report_user, leaveRoom_waitingQueue]; exact h
  | send_message sid data => exact h
  | disconnect sid =>
      simp only [step, disconnect, onDisconnect, leaveRoom_waitingQueue]
      exact NoMissedMatch_of_subset _ _ (fun x hx => List.mem_of_mem_filter hx) h

theorem run_NoMissedMatch (evs : List Event) (st : State) (h : NoMissedMatch st.waitingQueue) :
    NoMissedMatch (run st evs).waitingQueue := by
  induction evs generalizing st with
  | nil => exact h
  | cons e es ih => exact ih (step st e).1 (step_NoMissedMatch st e h)

/-- C17: in every reachable state the queue holds no missed match: no two entries with
different ids are such that each one's filter accepts the other's gender. -/
theorem queue_has_no_missed_match (st : State) (hreach : Reachable st) :
    ∀ e1 ∈ st.waitingQueue, ∀ e2 ∈ st.waitingQueue, e1.id ≠ e2.id →
      ¬ ((e1.genderFilter = "Any" ∨ e1.genderFilter = e2.gender) ∧
         (e2.genderFilter = "Any" ∨ e2.genderFilter = e1.gender)) := by
  obtain ⟨evs, rfl⟩ := hreach
  exact run_NoMissedMatch evs init (fun e1 h1 => by simp [init] at h1)

theorem queue_has_no_missed_match_witness :
    fifoState.waitingQueue.length = 3 ∧
    ∀ e1 ∈ fifoState.waitingQueue, ∀ e2 ∈ fifoState.waitingQueue, e1.id ≠ e2.id →
      ¬ ((e1.genderFilter = "Any" ∨ e1.genderFilter = e2.gender) ∧
         (e2.genderFilter = "Any" ∨ e2.genderFilter = e1.gender)) :=
  ⟨by decide, queue_has_no_missed_match fifoState ⟨fifoEvents, rfl⟩⟩

/-! ### The ledger is written at one key only -/

/-- C18: a `join_queue` request of device `userData.deviceId` leaves the record of every
other device as it was, and leaves the whole ledger as it was when its filter is "Any";
`connection`, `report_user`, `send_message` and `disconnect` leave the whole ledger as it
was. -/
theorem ledger_changes_only_at_requesting_device (st : State) :
    (∀ sid userData today d, d ≠ userData.deviceId →
      (step st (Event.join_queue sid userData today)).1.userUsage d = st.userUsage d) ∧
    (∀ sid userData today, userData.genderFilter = "Any" →
      (step st (Event.join_queue sid userData today)).1.userUsage = st.userUsage) ∧
    (∀ sid, (step st (Event.report_user sid)).1.userUsage = st.userUsage) ∧
    (∀ sid data, (step st (Event.send_message sid data)).1.userUsage = st.userUsage) ∧
    (∀ sid, (step st (Event.disconnect sid)).1.userUsage = st.userUsage) ∧
    (∀ sid, (step st (Event.connection sid)).1.userUsage = st.userUsage) := by
  refine ⟨?_, ?_, ?_, ?_, ?_, ?_⟩
  · intro sid userData today d hd
    simp only [step, join_queue_userUsage]
    exact fairnessCheck_other _ _ _ _ _ hd
  · intro sid userData today hf
    simp only [step, join_queue_userUsage]
    rw [hf, fairnessCheck_any]
  · intro sid
    exact report_user_userUsage st sid
  · intro sid data
    rfl
  · intro sid
    exact disconnect_userUsage st sid
  · intro sid
    rfl

end ControlledAnonymity
